import Mathlib

/-!
Verification of the repository-fix orchestration engine of
pcds-python-migration-tools (`update_repository.py` and the template-file
loop of `update_twincat_repository.py`).

The embedding models:
  * the Python string primitives the fixes rely on (`str.rstrip`,
    `str.splitlines`, `"\n".join`, `str.replace`, substring tests),
  * a repository checkout as a map from relative paths to file contents,
  * the fix descriptors produced by the catalog (`get_fixes`) together
    with their effect on the checkout (`run`),
  * the runner (`run_fixes`) as a trace-producing interpreter with an
    operator-answer stream for the interactive continue-on-error prompts.

External collaborators (the jinja2 template renderer, the travis-to-GHA
translator, pyupgrade, setup.py-to-pyproject conversion, the unified-diff
formatter) are taken as explicit function parameters, matching the spec's
treatment of them as pure external services.
-/

namespace PcdsMigration

/-- Characters stripped by Python's `str.rstrip()` with no argument. -/
def pyIsSpace (c : Char) : Bool :=
  c = ' ' || c = '\t' || c = '\n' || c = '\r' || c = '\x0b' || c = '\x0c'

/-- Python `s.rstrip()`: remove trailing whitespace characters. -/
def pythonRstrip (s : String) : String :=
  String.mk ((s.data.reverse.dropWhile pyIsSpace).reverse)

/-- Helper for `pySplitlines`: walk the characters, breaking at
`\r\n`, `\r` and `\n`; a trailing line terminator produces no extra
empty line, matching Python `str.splitlines()`. -/
def pySplitlinesAux : List Char → List Char → List (List Char)
  | [], acc => if acc.isEmpty then [] else [acc.reverse]
  | '\r' :: '\n' :: rest, acc => acc.reverse :: pySplitlinesAux rest []
  | '\r' :: rest, acc => acc.reverse :: pySplitlinesAux rest []
  | '\n' :: rest, acc => acc.reverse :: pySplitlinesAux rest []
  | c :: rest, acc => pySplitlinesAux rest (c :: acc)

/-- Python `s.splitlines()` restricted to the `\n`, `\r`, `\r\n`
terminators (the only ones the tool's files contain). -/
def pySplitlines (s : String) : List String :=
  (pySplitlinesAux s.data []).map String.mk

/-- Python `pat in s` substring test (for non-empty `pat`). -/
def pyContains (s pat : String) : Bool :=
  (s.splitOn pat).length ≠ 1

/-- Python `"\n".join(lines)`. -/
def joinLines : List String → String
  | [] => ""
  | [a] => a
  | a :: b :: rest => a ++ "\n" ++ joinLines (b :: rest)

/-- `"\n".join(lines)` followed by `.rstrip()` and the trailing newline
that `print(..., file=fp)` appends: the exact text every line-rewriting
fix writes back to its file. -/
def writeLines (lines : List String) : String :=
  pythonRstrip (joinLines lines) ++ "\n"

/-- A line free of line terminators (so that joining and re-splitting
round-trips). -/
def cleanLine (s : String) : Bool :=
  s.data.all (fun c => c != '\n' && c != '\r')

/-- A repository checkout: relative path → file contents (`none` when the
path does not exist).  The `.git` marker entry stands for the metadata
directory probed by the catalog's precondition check. -/
def FS : Type := String → Option String

/-- Write (create or overwrite) one file. -/
def FS.write (fs : FS) (p c : String) : FS :=
  fun q => if q = p then some c else fs q

/-- Remove one file. -/
def FS.del (fs : FS) (p : String) : FS :=
  fun q => if q = p then none else fs q

/-- Build a checkout from an association list of files. -/
def FS.ofList (l : List (String × String)) : FS :=
  fun q => (l.find? (fun e => e.1 = q)).map (fun e => e.2)

theorem FS.write_same (fs : FS) (p c : String) : fs.write p c p = some c := by
  simp [FS.write]

theorem FS.write_other (fs : FS) (p c q : String) (h : q ≠ p) :
    fs.write p c q = fs q := by
  simp [FS.write, h]

theorem FS.del_same (fs : FS) (p : String) : fs.del p p = none := by
  simp [FS.del]

theorem FS.del_other (fs : FS) (p q : String) (h : q ≠ p) :
    fs.del p q = fs q := by
  simp [FS.del, h]

/-- One fix descriptor, as constructed by the catalog (`get_fixes` in
`update_repository.py`).  Each constructor mirrors one `Fix` subclass and
records exactly the data its `__post_init__` computes; composite fixes
(`NestedFix` subclasses) carry their class-specific commit message and
their ordered child list. -/
inductive FixDesc : Type where
  | deleteFiles (name : String) (files : List String) (missing_ok : Bool)
  | addFile (name file contents : String)
  | addFileFromTemplate (name template_file dest_file contents : String)
      (existing_contents : Option String) (changed : Bool)
  | updateSphinxConfig (name file original_contents new_contents : String)
  | prependLines (name file : String) (lines : List String) (skip_if_present : Bool)
  | removeLines (name file : String) (lines : List String)
  | runPyupgrade (name python_version : String) (skip_files : List String)
  | nested (name commit_message : String) (children : List FixDesc)

/-- `DeleteFiles.run`: unlink each listed file; a missing file is skipped
when `missing_ok` and raises (`none`) otherwise. -/
def deleteAll (missing_ok : Bool) : List String → FS → Option FS
  | [], fs => some fs
  | p :: ps, fs =>
    match fs p with
    | some _ => deleteAll missing_ok ps (fs.del p)
    | none => if missing_ok then deleteAll missing_ok ps fs else none

/-- The line-insertion loop of `PrependLines.run`: insert each configured
line at position 0 unless `skip_if_present` and it is already present. -/
def prependFold (skip_if_present : Bool) (cfg : List String) (ls : List String) :
    List String :=
  cfg.foldl (fun acc l => if !skip_if_present || !(acc.contains l) then l :: acc else acc) ls

/-- The removal loop of `RemoveLines.run`: for each configured line,
remove every occurrence from the file's lines. -/
def removeFold (cfg : List String) (ls : List String) : List String :=
  cfg.foldl (fun acc l => acc.filter (fun x => x != l)) ls

mutual

/-- Effect of `Fix.run` on the checkout.  `none` models a raised
exception (a missing file opened for reading, or a non-`missing_ok`
delete of an absent file).  `pyup` is the external pyupgrade pass. -/
def applyFix (pyup : FS → FS) : FixDesc → FS → Option FS
  | .deleteFiles _ files missing_ok, fs => deleteAll missing_ok files fs
  | .addFile _ file contents, fs =>
      some (fs.write file (pythonRstrip contents ++ "\n"))
  | .addFileFromTemplate _ _ dest contents _ _, fs =>
      some (fs.write dest (pythonRstrip contents ++ "\n"))
  | .updateSphinxConfig _ file _ newContents, fs =>
      some (fs.write file (pythonRstrip newContents ++ "\n"))
  | .prependLines _ file lines skip_if_present, fs =>
      match fs file with
      | none => none
      | some content =>
          some (fs.write file (writeLines (prependFold skip_if_present lines (pySplitlines content))))
  | .removeLines _ file lines, fs =>
      match fs file with
      | none => none
      | some content =>
          some (fs.write file (writeLines (removeFold lines (pySplitlines content))))
  | .runPyupgrade _ _ _, fs => some (pyup fs)
  | .nested _ _ children, fs => applyFixes pyup children fs

/-- `NestedFix.run` / applying a whole fix list in order: run each fix,
propagating the first exception. -/
def applyFixes (pyup : FS → FS) : List FixDesc → FS → Option FS
  | [], fs => some fs
  | f :: rest, fs =>
    match applyFix pyup f fs with
    | none => none
    | some fs' => applyFixes pyup rest fs'

end

/-- `AddFileFromTemplate.description` (lines 451-465 of
`update_repository.py`).  `diffBlock` abstracts the external
`difflib.unified_diff` + `textwrap.indent` formatting of the two line
lists; the fix's `template_args` is always the empty dict in this
catalog, printed as `\x7b\x7d`. -/
def aftDescription (diffBlock : List String → List String → String → String → String)
    (template_file dest_file contents : String) (existing_contents : Option String)
    (changed : Bool) : String :=
  match existing_contents with
  | none =>
      "Add *new* " ++ dest_file ++ " from template with args \x7b\x7d:\n" ++ contents
  | some existing =>
      let diff := diffBlock (pySplitlines existing) (pySplitlines contents)
        ("template/" ++ template_file) dest_file
      if changed then
        "Modify " ++ dest_file ++ " from template with args \x7b\x7d:\n" ++ diff
      else
        dest_file ++ " from template is unchanged; this fix is a no-op"

/-- `FixDesc.description` applied to an `addFileFromTemplate` descriptor;
`""` for the other constructors (their descriptions are not needed by any
claim). -/
def FixDesc.aftDesc (diffBlock : List String → List String → String → String → String) :
    FixDesc → String
  | .addFileFromTemplate _ template_file dest_file contents existing_contents changed =>
      aftDescription diffBlock template_file dest_file contents existing_contents changed
  | _ => ""

/-- First candidate destination path that exists (the `for ... else` loop
over `possible_files`). -/
def firstExisting (fs : FS) : List String → Option String
  | [] => none
  | p :: ps => if (fs p).isSome then some p else firstExisting fs ps

/-- Construction of an `AddFileFromTemplate` fix (`__post_init__`):
render the template, read the existing destination contents if present,
and record whether the rendered text differs.  `render` is the external
jinja2 renderer, keyed by source base path and template file. -/
def mkAddFileFromTemplate (render : String → String → String)
    (name source_base_path template_file dest_file : String) (fs : FS) : FixDesc :=
  let contents := render source_base_path template_file
  match fs dest_file with
  | some existing =>
      .addFileFromTemplate name template_file dest_file contents (some existing)
        (decide (existing ≠ contents))
  | none =>
      .addFileFromTemplate name template_file dest_file contents none false

/-- Files skipped by the pyupgrade pass. -/
def pyupgrade_skip_files : List String := ["setup.py", "versioneer.py", "_version.py"]

/-- The cookiecutter template root directory (as a path string). -/
def cookiecutter_root : String :=
  "cookiecutter-pcds-python/\x7b\x7b cookiecutter.folder_name \x7d\x7d"

/-- The cookiecutter import-package template directory. -/
def cookiecutter_import_path : String :=
  cookiecutter_root ++ "/\x7b\x7b cookiecutter.import_name \x7d\x7d"

namespace UpdateRepo

/-- `TemplateFile` of `update_repository.py`: template source, candidate
destinations, and the single `add_if_missing` policy boolean. -/
structure TemplateFile where
  template_file : String
  possible_files : List String
  add_if_missing : Bool
deriving DecidableEq

/-- A descriptor whose `possible_files` was defaulted by `__post_init__`
to `[template_file]`. -/
def TemplateFile.single (t : String) : TemplateFile := ⟨t, [t], true⟩

/-- The `to_update` list of `get_fixes`. -/
def to_update : List TemplateFile :=
  [⟨"LICENSE", ["LICENSE", "LICENSE.md", "LICENSE.rst"], true⟩,
   TemplateFile.single "AUTHORS.rst",
   TemplateFile.single "CONTRIBUTING.rst",
   TemplateFile.single ".pre-commit-config.yaml",
   TemplateFile.single ".flake8",
   TemplateFile.single ".coveragerc",
   TemplateFile.single ".git_archival.txt",
   TemplateFile.single ".gitattributes"]

/-- One iteration of the `for file in to_update` loop of `get_fixes`:
the first existing candidate wins, otherwise the template's own path is
the destination provided `add_if_missing`. -/
def templateFixStep (render : String → String → String) (fs : FS) (tf : TemplateFile) :
    Option FixDesc :=
  match firstExisting fs tf.possible_files with
  | some dest =>
      some (mkAddFileFromTemplate render ("add_" ++ tf.template_file) cookiecutter_root
        tf.template_file dest fs)
  | none =>
      if tf.add_if_missing then
        some (mkAddFileFromTemplate render ("add_" ++ tf.template_file) cookiecutter_root
          tf.template_file tf.template_file fs)
      else none

/-- All template-provisioning fixes emitted by `get_fixes`. -/
def templateFixes (render : String → String → String) (fs : FS) : List FixDesc :=
  to_update.filterMap (templateFixStep render fs)

/-- The content rewrite of `UpdateSphinxConfig.__post_init__`. -/
def sphinxNewContents (orig : String) : String :=
  let c1 := orig.replace "doctr_versions_menu" "docs-versions-menu"
  let c2 := c1.replace "language = None" "language = \"en\""
  if pyContains c2 "sphinxcontrib.jquery" then c2
  else c2.replace "extensions = [" "extensions = [\n    \"sphinxcontrib.jquery\",\n"

/-- `GitHubActionsMigration`: the CI-migration composite, with its two
children in construction order.  `migrate` is the external
travis-to-GHA translator applied to the legacy config's contents. -/
def ghaMigration (migrate : String → String) (travisContents : String) : FixDesc :=
  .nested "gha" "CI: migrate to GitHub actions"
    [.deleteFiles "delete_travis" [".travis.yml"] false,
     .addFile "add_gha_workflow" ".github/workflows/standard.yml"
       (pythonRstrip (migrate travisContents))]

/-- `PyprojectTomlMigration`: delete `setup.py`/`setup.cfg`, add the
generated `pyproject.toml`. -/
def pyprojectTomlMigration (pyprojectToml : String) : FixDesc :=
  .nested "pyproject.toml" "BLD: migrate to pyproject.toml"
    [.deleteFiles "delete_setup_py" ["setup.py", "setup.cfg"] true,
     .addFile "add_pyproject_toml" "pyproject.toml" pyprojectToml]

/-- The versioneer boilerplate lines removed by `SetuptoolsScmMigration`. -/
def versioneer_lines : List String :=
  ["__version__ = _version.get_versions()['version']",
   "__version__ = get_versions()['version']",
   "del get_versions",
   "del _version",
   "from . import _version",
   "from ._version import get_versions"]

/-- `SetuptoolsScmMigration`: its four children in construction order;
the template child reads the checkout state at catalog time. -/
def setuptoolsScmMigration (render : String → String → String) (repoName : String)
    (fs : FS) : FixDesc :=
  .nested "setuptools_scm" "BLD: migrate to setuptools-scm"
    [.deleteFiles "delete_versioneer" ["versioneer.py", repoName ++ "/_version.py"] true,
     .removeLines "versioneer_lines" (repoName ++ "/__init__.py") versioneer_lines,
     .prependLines "setuptools_scm_version" (repoName ++ "/__init__.py")
       ["from .version import __version__  # noqa: F401"] true,
     mkAddFileFromTemplate render "add_setuptools_version" cookiecutter_import_path
       "version.py" (repoName ++ "/version.py") fs]

/-- `get_fixes` of `update_repository.py`: `none` when the root lacks
`.git` (the `RuntimeError` precondition), otherwise the fix list built by
the seven sequential sections of the function.  `pyprojectToml` is the
external `setup.py`-to-`pyproject` conversion. -/
def getFixes (render : String → String → String) (migrate : String → String)
    (pyprojectToml : FS → String) (repoName python_version : String) (fs : FS) :
    Option (List FixDesc) :=
  if (fs ".git").isNone then none
  else
    let removeFixes := if (fs "run_tests.py").isSome then
        [FixDesc.deleteFiles "remove-run_tests.py" ["run_tests.py"] false]
      else []
    let tmpl := templateFixes render fs
    let gha := match fs ".travis.yml" with
      | some tc => [ghaMigration migrate tc]
      | none => []
    let sphinx := match fs "docs/source/conf.py" with
      | some orig =>
        if orig ≠ sphinxNewContents orig then
          [FixDesc.updateSphinxConfig "update_sphinx_config" "docs/source/conf.py"
            orig (sphinxNewContents orig)]
        else []
      | none => []
    let pyup := [FixDesc.runPyupgrade "pyupgrade" python_version pyupgrade_skip_files]
    let pyproj := if (fs "setup.py").isSome then
        [pyprojectTomlMigration (pyprojectToml fs)]
      else []
    let scm := if (fs "versioneer.py").isSome || (fs (repoName ++ "/version.py")).isNone then
        [setuptoolsScmMigration render repoName fs]
      else []
    some (removeFixes ++ tmpl ++ gha ++ sphinx ++ pyup ++ pyproj ++ scm)

end UpdateRepo

namespace Twincat

/-- `TemplateFile` of `update_twincat_repository.py`: template root and
source, candidate destinations, and the two independent policy booleans
`add_if_missing` and `update_if_existing`. -/
structure TemplateFile where
  template_root : String
  template_file : String
  possible_files : List String
  add_if_missing : Bool
  update_if_existing : Bool
deriving DecidableEq

/-- One iteration of the `for file in to_update` loop of the twincat
`get_fixes` (lines 98-119): first existing candidate wins, otherwise the
template's own path provided `add_if_missing`; an existing destination is
then skipped unless `update_if_existing`. -/
def templateFixStep (render : String → String → String) (fs : FS) (tf : TemplateFile) :
    Option FixDesc :=
  let destOpt := match firstExisting fs tf.possible_files with
    | some d => some d
    | none => if tf.add_if_missing then some tf.template_file else none
  match destOpt with
  | none => none
  | some dest =>
    if (fs dest).isSome && !tf.update_if_existing then none
    else
      some (mkAddFileFromTemplate render ("add_" ++ tf.template_file) tf.template_root
        tf.template_file dest fs)

end Twincat

/-- Observable actions of the runner, in order of occurrence: console
prints, invocations of `Fix.run`, the error log + interactive prompt
pair, and the version-control commit primitive (`git commit`). -/
inductive Event : Type where
  | printed (text : String)
  | skipNote (name : String)
  | runInvoked (name : String)
  | runErrorLogged (name : String)
  | prompted
  | commitSkippedWarn
  | commitInvoked (message : String)
  | commitErrorLogged (message : String)
deriving DecidableEq

/-- A fix as the runner sees it: its name (for skip/only filtering), its
class name (interpolated into the commit message), its `commit_message`
property, and its `run` effect on the checkout.  The effect returns the
resulting checkout together with `true` when `run` raised; a raising run
may leave a partial effect behind. -/
structure RFix where
  name : String
  cls : String
  commit_message : String
  runEff : FS → FS × Bool

/-- `NestedFix.run`: run every child in order; a child's exception
propagates immediately, keeping the children's partial effects. -/
def nestedRunEff (children : List RFix) : FS → FS × Bool :=
  fun fs =>
    match children with
    | [] => (fs, false)
    | c :: cs =>
      let r := c.runEff fs
      if r.2 then (r.1, true) else nestedRunEff cs r.1

/-- Package a composite fix for the runner. -/
def mkNested (name cls commit_message : String) (children : List RFix) : RFix :=
  ⟨name, cls, commit_message, nestedRunEff children⟩

/-- ASCII lower-casing of one character (Python `str.lower` restricted
to the ASCII answers the prompt compares against). -/
def pyLowerChar (c : Char) : Char :=
  if 'A' ≤ c && c ≤ 'Z' then Char.ofNat (c.toNat + 32) else c

/-- Python `s.lower()` on ASCII text. -/
def pyLower (s : String) : String :=
  String.mk (s.data.map pyLowerChar)

/-- Python `input().lower() in ("", "y", "yes")`: the operator chose to
continue (the empty answer is the default). -/
def answerContinue (a : String) : Bool :=
  pyLower a = "" || pyLower a = "y" || pyLower a = "yes"

/-- The commit message assembled by `start_commit`. -/
def composedMessage (f : RFix) : String :=
  f.commit_message ++ "\n\nPerformed by pcds-migration-tools " ++ f.cls

/-- Result of executing one fix in the write-mode loop: the events it
emitted, the resulting checkout, whether the operator aborted the queue,
and the number of operator answers consumed so far. -/
structure StepResult where
  events : List Event
  fs : FS
  aborted : Bool
  k : Nat

/-- The commit tail of one loop iteration: skip silently on an empty
`commit_message`; probe `git status --porcelain` (`status`); warn and
skip when clean; otherwise invoke the commit, and on a commit failure
(`commitOk` false) prompt the operator. -/
def commitPhase (status commitOk : FS → Bool) (ans : Nat → String) (f : RFix)
    (fs1 : FS) (k : Nat) (ev : List Event) : StepResult :=
  if f.commit_message = "" then ⟨ev, fs1, false, k⟩
  else if status fs1 = false then ⟨ev ++ [Event.commitSkippedWarn], fs1, false, k⟩
  else
    let ev2 := ev ++ [Event.commitInvoked (composedMessage f)]
    if commitOk fs1 then ⟨ev2, fs1, false, k⟩
    else
      let ev3 := ev2 ++ [Event.commitErrorLogged (composedMessage f), Event.prompted]
      if answerContinue (ans k) then ⟨ev3, fs1, false, k + 1⟩
      else ⟨ev3, fs1, true, k + 1⟩

/-- One iteration of the write-mode loop of `run_fixes` for a selected
fix: print the description, invoke `run`, on an exception log and prompt
(aborting on a declining answer), then fall through to the commit
phase. -/
def runStep (status commitOk : FS → Bool) (ans : Nat → String) (f : RFix)
    (fs : FS) (k : Nat) : StepResult :=
  let r := f.runEff fs
  let ev0 := [Event.printed f.name, Event.runInvoked f.name]
  if r.2 then
    let ev1 := ev0 ++ [Event.runErrorLogged f.name, Event.prompted]
    if answerContinue (ans k) then
      commitPhase status commitOk ans f r.1 (k + 1) ev1
    else ⟨ev1, r.1, true, k + 1⟩
  else
    commitPhase status commitOk ans f r.1 k ev0

/-- Whether the write-mode loop executes a fix: `only` (when non-empty)
must contain its name and `skip` must not. -/
def selected (skip only : List String) (f : RFix) : Bool :=
  (only.isEmpty || only.contains f.name) && !skip.contains f.name

/-- The write-mode loop of `run_fixes`: execute each selected fix in
order, stopping when the operator aborts. -/
def runFixesExec (status commitOk : FS → Bool) (ans : Nat → String)
    (skip only : List String) : List RFix → FS → Nat → List Event × FS
  | [], fs, _ => ([], fs)
  | f :: rest, fs, k =>
    if selected skip only f then
      let st := runStep status commitOk ans f fs k
      if st.aborted then (st.events, st.fs)
      else
        let r := runFixesExec status commitOk ans skip only rest st.fs st.k
        (st.events ++ r.1, r.2)
    else runFixesExec status commitOk ans skip only rest fs k

/-- The preview phase of `run_fixes` (always executed): print each fix's
description, or a skip note for fixes in the skip list. -/
def previewEvents (skip : List String) (fixes : List RFix) : List Event :=
  fixes.map (fun f =>
    if skip.contains f.name then Event.skipNote f.name else Event.printed f.name)

/-- `run_fixes`: preview every fix, stop there on a dry run, otherwise
run the write-mode loop.  Returns the event trace and the final
checkout. -/
def runFixes (status commitOk : FS → Bool) (ans : Nat → String) (fixes : List RFix)
    (dry_run : Bool) (skip only : List String) (fs : FS) : List Event × FS :=
  let pre := previewEvents skip fixes
  if dry_run then (pre, fs)
  else
    let r := runFixesExec status commitOk ans skip only fixes fs 0
    (pre ++ r.1, r.2)

/-- Names of the fixes whose `run` the trace invoked, in order. -/
def ranNames (events : List Event) : List String :=
  events.filterMap (fun e =>
    match e with
    | Event.runInvoked n => some n
    | _ => none)

/-- The commit messages the trace passed to the commit primitive, in
order. -/
def commitMessages (events : List Event) : List String :=
  events.filterMap (fun e =>
    match e with
    | Event.commitInvoked m => some m
    | _ => none)

/-- The fold the children's states go through when a composite runs
without exceptions. -/
def childrenFold (children : List RFix) (fs : FS) : FS :=
  children.foldl (fun s c => (c.runEff s).1) fs

/-- Whether a descriptor is a template-provisioning fix whose `changed`
flag is set. -/
def aftChanged : FixDesc → Bool
  | .addFileFromTemplate _ _ _ _ _ changed => changed
  | _ => false

/-- Whether a descriptor is a template-provisioning fix. -/
def isAft : FixDesc → Bool
  | .addFileFromTemplate _ _ _ _ _ _ => true
  | _ => false

/-- Whether a template-provisioning fix's rendered contents and existing
contents agree line for line (`difflib` would emit an empty diff). -/
def aftLinesEq : FixDesc → Bool
  | .addFileFromTemplate _ _ _ contents (some existing) _ =>
      pySplitlines existing == pySplitlines contents
  | _ => true

/-- Whether a descriptor is the CI-migration composite. -/
def isGha : FixDesc → Bool
  | .nested "gha" _ _ => true
  | _ => false

/-- Concrete template renderer for the idempotence failing input: every
template renders to `"x"` — as jinja2 produces (its default
`keep_trailing_newline=False` strips the template's final newline). -/
def c1render : String → String → String := fun _ _ => "x"

/-- Concrete external collaborators for the failing input (none of them
is exercised by it). -/
def c1migrate : String → String := fun _ => ""

def c1pyprojectToml : FS → String := fun _ => ""

def c1pyup : FS → FS := id

/-- The failing repository checkout: version-control metadata plus an
up-to-date version module, nothing else. -/
def c1fs : FS := FS.ofList [(".git", ""), ("myrepo/version.py", "v")]

/-- First catalog run on the failing input. -/
def c1catalog1 : Option (List FixDesc) :=
  UpdateRepo.getFixes c1render c1migrate c1pyprojectToml "myrepo" "3.9" c1fs

/-- The checkout after applying every fix of the first catalog. -/
def c1fsAfter : Option FS :=
  c1catalog1.bind (fun l => applyFixes c1pyup l c1fs)

/-- Second catalog run, on the updated checkout. -/
def c1catalog2 : Option (List FixDesc) :=
  c1fsAfter.bind (UpdateRepo.getFixes c1render c1migrate c1pyprojectToml "myrepo" "3.9")

/-- The children of the concrete CI-migration composite used to exercise
the runner's commit handling of composites. -/
def c2deleteTravis : RFix :=
  ⟨"delete_travis", "DeleteFiles", "CLN: removing .travis.yml",
   fun fs => (fs.del ".travis.yml", false)⟩

def c2addWorkflow : RFix :=
  ⟨"add_gha_workflow", "AddFile", "",
   fun fs => (fs.write ".github/workflows/standard.yml" "w\n", false)⟩

/-- The concrete CI-migration composite, packaged as `NestedFix` is. -/
def c2gha : RFix :=
  mkNested "gha" "GitHubActionsMigration" "CI: migrate to GitHub actions"
    [c2deleteTravis, c2addWorkflow]

def c2fs : FS := FS.ofList [(".travis.yml", "t")]

/-- A concrete fix for runner witnesses: clean run, non-empty commit
message. -/
def w3fix : RFix := ⟨"f1", "AddFile", "MNT: m1", fun fs => (fs, false)⟩

/-- A concrete fix with an empty commit message. -/
def w3fixEmpty : RFix := ⟨"f2", "AddFile", "", fun fs => (fs, false)⟩

/-- A concrete fix whose run raises. -/
def w8fix : RFix := ⟨"bad", "DeleteFiles", "CLN: c", fun fs => (fs.write "partially" "p", true)⟩

/-- A concrete follow-up fix queued after the raising one. -/
def w8next : RFix := ⟨"good", "AddFile", "", fun fs => (fs.write "ok" "o", false)⟩

/-- A concrete fix that runs cleanly and declares a commit message, used
to exercise a failing commit. -/
def w8commitFix : RFix := ⟨"cbad", "AddFile", "MNT: c", fun fs => (fs.write "done" "d", false)⟩

/-- Checkout for the C5/C7 witnesses: every catalog gate enabled. -/
def w5fs : FS := FS.ofList
  [(".git", ""), ("run_tests.py", "rt"), ("LICENSE.md", "lic"),
   (".travis.yml", "language: python"), ("docs/source/conf.py", "language = None"),
   ("setup.py", "su"), ("versioneer.py", "vv")]

def w5render : String → String → String := fun _ t => t ++ "!"

def w5migrate : String → String := fun s => "on: [push]\n# from " ++ s ++ "\n"

def w5pyprojectToml : FS → String := fun _ => "[project]"

/-- The configured prepend lines of the C9 counterexample: a duplicated
entry. -/
def c9cfg : List String := ["a", "a"]

def c9fs : FS := FS.ofList [("f", "b")]

/-- The `name` attribute common to every fix. -/
def FixDesc.name : FixDesc → String
  | .deleteFiles n _ _ => n
  | .addFile n _ _ => n
  | .addFileFromTemplate n _ _ _ _ _ => n
  | .updateSphinxConfig n _ _ _ => n
  | .prependLines n _ _ _ => n
  | .removeLines n _ _ => n
  | .runPyupgrade n _ _ => n
  | .nested n _ _ => n

/-- Fixtures for the twincat template-policy witness: a checkout where
the (single) candidate destination already exists. -/
def w6fs : FS := FS.ofList [(".pre-commit-config.yaml", "old")]

def w6render : String → String → String := fun _ t => t ++ "#"

/-- A descriptor with `update_if_existing = False` (as the twincat
catalog configures `.pre-commit-config.yaml`). -/
def w6tfLocked : Twincat.TemplateFile :=
  ⟨"lcls-twincat-template-project", ".pre-commit-config.yaml",
   [".pre-commit-config.yaml"], true, false⟩

/-- The same descriptor with `update_if_existing = True`. -/
def w6tfOpen : Twincat.TemplateFile :=
  ⟨"lcls-twincat-template-project", ".pre-commit-config.yaml",
   [".pre-commit-config.yaml"], true, true⟩

theorem ranNames_append (a b : List Event) :
    ranNames (a ++ b) = ranNames a ++ ranNames b := by
  simp [ranNames]

theorem commitMessages_append (a b : List Event) :
    commitMessages (a ++ b) = commitMessages a ++ commitMessages b := by
  simp [commitMessages]

theorem commitMessages_commitPhase (status commitOk : FS → Bool) (ans : Nat → String)
    (f : RFix) (fs1 : FS) (k : Nat) (ev : List Event) :
    commitMessages (commitPhase status commitOk ans f fs1 k ev).events =
      commitMessages ev ++
        (if f.commit_message ≠ "" ∧ status fs1 = true then [composedMessage f] else []) := by
  unfold commitPhase
  split_ifs with h1 h2 h3 h4 <;>
    simp_all [commitMessages_append, commitMessages]

theorem ranNames_commitPhase (status commitOk : FS → Bool) (ans : Nat → String)
    (f : RFix) (fs1 : FS) (k : Nat) (ev : List Event) :
    ranNames (commitPhase status commitOk ans f fs1 k ev).events = ranNames ev := by
  unfold commitPhase
  split_ifs <;> simp [ranNames_append, ranNames]

theorem commitPhase_fs (status commitOk : FS → Bool) (ans : Nat → String)
    (f : RFix) (fs1 : FS) (k : Nat) (ev : List Event) :
    (commitPhase status commitOk ans f fs1 k ev).fs = fs1 := by
  unfold commitPhase
  split_ifs <;> rfl

theorem commitPhase_aborted_of_ok (status commitOk : FS → Bool) (ans : Nat → String)
    (f : RFix) (fs1 : FS) (k : Nat) (ev : List Event) (hok : commitOk fs1 = true) :
    (commitPhase status commitOk ans f fs1 k ev).aborted = false := by
  unfold commitPhase
  split_ifs <;> simp_all

theorem commitPhase_silent (status commitOk : FS → Bool) (ans : Nat → String)
    (f : RFix) (fs1 : FS) (k : Nat) (ev : List Event)
    (h : f.commit_message = "" ∨ status fs1 = false) :
    (commitPhase status commitOk ans f fs1 k ev).aborted = false := by
  unfold commitPhase
  rcases h with h | h <;> split_ifs <;> simp_all

theorem runStep_no_raise (status commitOk : FS → Bool) (ans : Nat → String)
    (f : RFix) (fs : FS) (k : Nat) (h : (f.runEff fs).2 = false) :
    runStep status commitOk ans f fs k =
      commitPhase status commitOk ans f (f.runEff fs).1 k
        [Event.printed f.name, Event.runInvoked f.name] := by
  unfold runStep
  simp [h]

theorem runStep_raise_decline (status commitOk : FS → Bool) (ans : Nat → String)
    (f : RFix) (fs : FS) (k : Nat) (h : (f.runEff fs).2 = true)
    (hd : answerContinue (ans k) = false) :
    runStep status commitOk ans f fs k =
      ⟨[Event.printed f.name, Event.runInvoked f.name, Event.runErrorLogged f.name,
        Event.prompted], (f.runEff fs).1, true, k + 1⟩ := by
  unfold runStep
  simp [h, hd]

theorem runStep_raise_continue (status commitOk : FS → Bool) (ans : Nat → String)
    (f : RFix) (fs : FS) (k : Nat) (h : (f.runEff fs).2 = true)
    (hc : answerContinue (ans k) = true) :
    runStep status commitOk ans f fs k =
      commitPhase status commitOk ans f (f.runEff fs).1 (k + 1)
        [Event.printed f.name, Event.runInvoked f.name, Event.runErrorLogged f.name,
         Event.prompted] := by
  unfold runStep
  simp [h, hc]

/-- Claim C4: dry-run purity — for every fix list and every skip/only
arguments, running the runner in dry-run mode stops after the preview
phase (returning normally), leaves every file's contents untouched,
never invokes any fix's `run()` and never invokes the commit
primitive. -/
theorem c4_dry_run_purity (status commitOk : FS → Bool) (ans : Nat → String)
    (fixes : List RFix) (skip only : List String) (fs : FS) :
    runFixes status commitOk ans fixes true skip only fs = (previewEvents skip fixes, fs) ∧
    ranNames (previewEvents skip fixes) = [] ∧
    commitMessages (previewEvents skip fixes) = [] := by
  refine ⟨rfl, ?_, ?_⟩ <;>
  · simp only [ranNames, commitMessages, previewEvents, List.filterMap_eq_nil_iff,
      List.mem_map]
    rintro e ⟨f, _, rfl⟩
    cases hc : skip.contains f.name <;> simp [hc]

/-- Claim C3: commit gating — after a non-raising fix runs, the commit
primitive is invoked (with the fix's composed message) exactly when the
fix's `commit_message` is non-empty and the status probe reports a
pending change-set; a fix with an empty commit message never triggers a
commit (whatever the probe and even when `run` raised); and the
no-commit case is silent (the step does not abort). -/
theorem c3_commit_gating (status commitOk : FS → Bool) (ans : Nat → String)
    (f : RFix) (fs : FS) (k : Nat) :
    ((f.runEff fs).2 = false →
      commitMessages (runStep status commitOk ans f fs k).events =
        (if f.commit_message ≠ "" ∧ status (f.runEff fs).1 = true
          then [composedMessage f] else [])) ∧
    (f.commit_message = "" →
      commitMessages (runStep status commitOk ans f fs k).events = []) ∧
    ((f.runEff fs).2 = false →
      (f.commit_message = "" ∨ status (f.runEff fs).1 = false) →
      (runStep status commitOk ans f fs k).aborted = false) := by
  refine ⟨?_, ?_, ?_⟩
  · intro h
    rw [runStep_no_raise status commitOk ans f fs k h, commitMessages_commitPhase]
    rfl
  · intro hmsg
    cases h : (f.runEff fs).2 with
    | false =>
      rw [runStep_no_raise status commitOk ans f fs k h, commitMessages_commitPhase]
      simp [hmsg, commitMessages]
    | true =>
      cases hc : answerContinue (ans k) with
      | false =>
        rw [runStep_raise_decline status commitOk ans f fs k h hc]
        rfl
      | true =>
        rw [runStep_raise_continue status commitOk ans f fs k h hc,
          commitMessages_commitPhase]
        simp [hmsg, commitMessages]
  · intro h hsil
    rw [runStep_no_raise status commitOk ans f fs k h]
    exact commitPhase_silent _ _ _ _ _ _ _ hsil

/-- Witness for C3: a concrete fix with message `"MNT: m1"` and a dirty
tree commits with its composed message; a concrete fix with an empty
message does not commit and does not abort. -/
theorem c3_commit_gating_witness :
    commitMessages (runStep (fun _ => true) (fun _ => true) (fun _ => "") w3fix
      (FS.ofList []) 0).events = [composedMessage w3fix] ∧
    commitMessages (runStep (fun _ => true) (fun _ => true) (fun _ => "") w3fixEmpty
      (FS.ofList []) 0).events = [] ∧
    (runStep (fun _ => true) (fun _ => true) (fun _ => "") w3fixEmpty
      (FS.ofList []) 0).aborted = false := by
  refine ⟨?_, ?_, ?_⟩
  · rw [(c3_commit_gating (fun _ => true) (fun _ => true) (fun _ => "") w3fix
      (FS.ofList []) 0).1 (by rfl)]
    rfl
  · exact (c3_commit_gating (fun _ => true) (fun _ => true) (fun _ => "") w3fixEmpty
      (FS.ofList []) 0).2.1 rfl
  · exact (c3_commit_gating (fun _ => true) (fun _ => true) (fun _ => "") w3fixEmpty
      (FS.ofList []) 0).2.2 rfl (Or.inl rfl)

theorem commitPhase_events_mem (status commitOk : FS → Bool) (ans : Nat → String)
    (f : RFix) (fs1 : FS) (k : Nat) (ev : List Event) (e : Event) (he : e ∈ ev) :
    e ∈ (commitPhase status commitOk ans f fs1 k ev).events := by
  unfold commitPhase
  split_ifs <;> simp [he]

theorem runStep_clean_aborted (status : FS → Bool) (ans : Nat → String)
    (f : RFix) (fs : FS) (k : Nat) (h : (f.runEff fs).2 = false) :
    (runStep status (fun _ => true) ans f fs k).aborted = false := by
  rw [runStep_no_raise _ _ _ _ _ _ h]
  exact commitPhase_aborted_of_ok _ _ _ _ _ _ _ rfl

theorem runStep_ranNames (status commitOk : FS → Bool) (ans : Nat → String)
    (f : RFix) (fs : FS) (k : Nat) (h : (f.runEff fs).2 = false) :
    ranNames (runStep status commitOk ans f fs k).events = [f.name] := by
  rw [runStep_no_raise _ _ _ _ _ _ h, ranNames_commitPhase]
  rfl

/-- Claim C10: skip takes precedence over only — in write mode the
executed fixes are exactly those whose name passes the `only` allow-list
(when non-empty) and is not in `skip`; in particular a skip-listed name
is never run, even when it is also in `only`.  Stated for runs where no
fix raises and the commit primitive succeeds. -/
theorem c10_skip_only (status : FS → Bool) (ans : Nat → String)
    (skip only : List String) (fixes : List RFix) (fs : FS) (k : Nat)
    (h : ∀ f ∈ fixes, ∀ s, (f.runEff s).2 = false) :
    ranNames (runFixesExec status (fun _ => true) ans skip only fixes fs k).1 =
      (fixes.filter (selected skip only)).map RFix.name ∧
    ∀ n ∈ skip, n ∉ ranNames (runFixesExec status (fun _ => true) ans skip only fixes fs k).1 := by
  have main : ∀ (l : List RFix), (∀ f ∈ l, ∀ s, (f.runEff s).2 = false) →
      ∀ (fs : FS) (k : Nat),
      ranNames (runFixesExec status (fun _ => true) ans skip only l fs k).1 =
        (l.filter (selected skip only)).map RFix.name := by
    intro l
    induction l with
    | nil => intro _ fs k; rfl
    | cons f rest ih =>
      intro hl fs k
      have hf : ∀ s, (f.runEff s).2 = false := hl f (by simp)
      have hrest : ∀ g ∈ rest, ∀ s, (g.runEff s).2 = false := by
        intro g hg; exact hl g (by simp [hg])
      cases hsel : selected skip only f with
      | true =>
        have hab := runStep_clean_aborted status ans f fs k (hf fs)
        simp only [runFixesExec, hsel, if_true, hab, if_false, Bool.false_eq_true]
        rw [ranNames_append, runStep_ranNames _ _ _ _ _ _ (hf fs),
          ih hrest _ _, List.filter_cons_of_pos (by simp [hsel]), List.map_cons]
        rfl
      | false =>
        simp only [runFixesExec, hsel, Bool.false_eq_true, if_false]
        rw [ih hrest fs k, List.filter_cons_of_neg (by simp [hsel])]
  refine ⟨main fixes h fs k, ?_⟩
  intro n hn hmem
  rw [main fixes h fs k] at hmem
  obtain ⟨g, hg, rfl⟩ := List.mem_map.mp hmem
  have hsel := (List.mem_filter.mp hg).2
  simp only [selected, Bool.and_eq_true, Bool.not_eq_true'] at hsel
  have hcontains : skip.contains g.name = true := by
    simpa using hn
  rw [hsel.2] at hcontains
  exact Bool.false_ne_true hcontains

/-- Witness for C10 at a concrete queue: with `only = [f1, f2]` and
`skip = [f2]`, exactly `f1` executes. -/
theorem c10_skip_only_witness :
    ranNames (runFixesExec (fun _ => true) (fun _ => true) (fun _ => "") ["f2"]
        ["f1", "f2"] [w3fix, w3fixEmpty] (FS.ofList []) 0).1 =
      ([w3fix, w3fixEmpty].filter (selected ["f2"] ["f1", "f2"])).map RFix.name ∧
    ∀ n ∈ ["f2"], n ∉ ranNames (runFixesExec (fun _ => true) (fun _ => true)
        (fun _ => "") ["f2"] ["f1", "f2"] [w3fix, w3fixEmpty] (FS.ofList []) 0).1 := by
  exact c10_skip_only (fun _ => true) (fun _ => "") ["f2"] ["f1", "f2"]
    [w3fix, w3fixEmpty] (FS.ofList []) 0
    (by intro f hf s; fin_cases hf <;> rfl)

theorem commitPhase_aborted_of_answer (status commitOk : FS → Bool)
    (ans : Nat → String) (f : RFix) (fs1 : FS) (k : Nat) (ev : List Event)
    (h : answerContinue (ans k) = true) :
    (commitPhase status commitOk ans f fs1 k ev).aborted = false := by
  unfold commitPhase
  split_ifs <;> simp_all

theorem runStep_commit_raise (status commitOk : FS → Bool) (ans : Nat → String)
    (f : RFix) (fs : FS) (k : Nat)
    (hclean : (f.runEff fs).2 = false)
    (hmsg : f.commit_message ≠ "")
    (hstatus : status (f.runEff fs).1 = true)
    (hcommit : commitOk (f.runEff fs).1 = false)
    (hd : answerContinue (ans k) = false) :
    runStep status commitOk ans f fs k =
      ⟨[Event.printed f.name, Event.runInvoked f.name,
        Event.commitInvoked (composedMessage f),
        Event.commitErrorLogged (composedMessage f), Event.prompted],
       (f.runEff fs).1, true, k + 1⟩ := by
  rw [runStep_no_raise _ _ _ _ _ _ hclean]
  unfold commitPhase
  rw [if_neg hmsg, if_neg (by simp [hstatus]), if_neg (by simp [hcommit]),
    if_neg (by simp [hd])]
  simp

/-- Claim C8: failure recovery — whenever a selected fix's `run()` or
its commit raises, the exception is caught, logged and the operator
prompted; a declining answer stops the runner before the next queued
fix, with all prior effects (including the failing fix's partial effect)
kept on disk and no rollback; a continuing answer — the empty answer is
the default — lets execution proceed to the next queued fix. -/
theorem c8_failure_recovery (status commitOk : FS → Bool) (ans : Nat → String)
    (skip only : List String) (f : RFix) (rest : List RFix) (fs : FS) (k : Nat)
    (hsel : selected skip only f = true) :
    ((f.runEff fs).2 = true →
      Event.runErrorLogged f.name ∈ (runStep status commitOk ans f fs k).events ∧
      Event.prompted ∈ (runStep status commitOk ans f fs k).events) ∧
    ((f.runEff fs).2 = true → answerContinue (ans k) = false →
      runFixesExec status commitOk ans skip only (f :: rest) fs k =
        ([Event.printed f.name, Event.runInvoked f.name, Event.runErrorLogged f.name,
          Event.prompted], (f.runEff fs).1)) ∧
    ((f.runEff fs).2 = false → f.commit_message ≠ "" →
      status (f.runEff fs).1 = true → commitOk (f.runEff fs).1 = false →
      Event.commitErrorLogged (composedMessage f) ∈
        (runStep status commitOk ans f fs k).events ∧
      Event.prompted ∈ (runStep status commitOk ans f fs k).events) ∧
    ((f.runEff fs).2 = false → f.commit_message ≠ "" →
      status (f.runEff fs).1 = true → commitOk (f.runEff fs).1 = false →
      answerContinue (ans k) = false →
      runFixesExec status commitOk ans skip only (f :: rest) fs k =
        ([Event.printed f.name, Event.runInvoked f.name,
          Event.commitInvoked (composedMessage f),
          Event.commitErrorLogged (composedMessage f), Event.prompted],
         (f.runEff fs).1)) ∧
    ((∀ j, answerContinue (ans j) = true) →
      (runStep status commitOk ans f fs k).aborted = false) ∧
    ((runStep status commitOk ans f fs k).aborted = false →
      runFixesExec status commitOk ans skip only (f :: rest) fs k =
        ((runStep status commitOk ans f fs k).events ++
          (runFixesExec status commitOk ans skip only rest
            (runStep status commitOk ans f fs k).fs
            (runStep status commitOk ans f fs k).k).1,
         (runFixesExec status commitOk ans skip only rest
            (runStep status commitOk ans f fs k).fs
            (runStep status commitOk ans f fs k).k).2)) := by
  refine ⟨?_, ?_, ?_, ?_, ?_, ?_⟩
  · intro hraise
    cases hc : answerContinue (ans k) with
    | false =>
      rw [runStep_raise_decline _ _ _ _ _ _ hraise hc]
      exact ⟨by simp, by simp⟩
    | true =>
      rw [runStep_raise_continue _ _ _ _ _ _ hraise hc]
      exact ⟨commitPhase_events_mem _ _ _ _ _ _ _ _ (by simp),
        commitPhase_events_mem _ _ _ _ _ _ _ _ (by simp)⟩
  · intro hraise hd
    have hst := runStep_raise_decline status commitOk ans f fs k hraise hd
    simp only [runFixesExec, hsel, if_true, hst]
  · intro hclean hmsg hstatus hcommit
    rw [runStep_no_raise _ _ _ _ _ _ hclean]
    unfold commitPhase
    rw [if_neg hmsg, if_neg (by simp [hstatus]), if_neg (by simp [hcommit])]
    split_ifs <;> exact ⟨by simp, by simp⟩
  · intro hclean hmsg hstatus hcommit hd
    have hst := runStep_commit_raise status commitOk ans f fs k hclean hmsg
      hstatus hcommit hd
    simp only [runFixesExec, hsel, if_true, hst]
  · intro hall
    cases hraise : (f.runEff fs).2 with
    | false =>
      rw [runStep_no_raise _ _ _ _ _ _ hraise]
      exact commitPhase_aborted_of_answer _ _ _ _ _ _ _ (hall k)
    | true =>
      rw [runStep_raise_continue _ _ _ _ _ _ hraise (hall k)]
      exact commitPhase_aborted_of_answer _ _ _ _ _ _ _ (hall (k + 1))
  · intro hab
    simp only [runFixesExec, hsel, if_true, hab, Bool.false_eq_true, if_false]

/-- Witness for C8: a declining answer after the raising fix stops the
runner with that fix's partial effect as the final state (the queued
follow-up never runs); a declining answer after a failing commit of the
cleanly-run fix likewise stops the runner, with the commit's exception
logged and prompted in the trace. -/
theorem c8_failure_recovery_witness :
    runFixesExec (fun _ => true) (fun _ => true) (fun _ => "n") [] []
        [w8fix, w8next] (FS.ofList []) 0 =
      ([Event.printed w8fix.name, Event.runInvoked w8fix.name,
        Event.runErrorLogged w8fix.name, Event.prompted],
       (w8fix.runEff (FS.ofList [])).1) ∧
    runFixesExec (fun _ => true) (fun _ => false) (fun _ => "n") [] []
        [w8commitFix, w8next] (FS.ofList []) 0 =
      ([Event.printed w8commitFix.name, Event.runInvoked w8commitFix.name,
        Event.commitInvoked (composedMessage w8commitFix),
        Event.commitErrorLogged (composedMessage w8commitFix), Event.prompted],
       (w8commitFix.runEff (FS.ofList [])).1) := by
  constructor
  · exact (c8_failure_recovery (fun _ => true) (fun _ => true) (fun _ => "n") [] []
      w8fix [w8next] (FS.ofList []) 0 (by decide)).2.1 rfl (by decide)
  · exact (c8_failure_recovery (fun _ => true) (fun _ => false) (fun _ => "n") [] []
      w8commitFix [w8next] (FS.ofList []) 0 (by decide)).2.2.2.1 rfl (by decide)
      rfl rfl (by decide)

theorem nestedRunEff_no_raise (children : List RFix) (fs : FS)
    (h : ∀ c ∈ children, ∀ s, (c.runEff s).2 = false) :
    nestedRunEff children fs = (childrenFold children fs, false) := by
  induction children generalizing fs with
  | nil => rfl
  | cons c cs ih =>
    have hc : (c.runEff fs).2 = false := h c (by simp) fs
    have hcs : ∀ g ∈ cs, ∀ s, (g.runEff s).2 = false := by
      intro g hg; exact h g (by simp [hg])
    rw [nestedRunEff, hc]
    simp only [Bool.false_eq_true, if_false]
    exact ih _ hcs

/-- Counterexample to claim C2: the runner, executing the CI-migration
composite, creates a commit with the composite's own commit message, and
the children never commit individually — `delete_travis` declares the
non-empty message `CLN: removing .travis.yml`, yet no commit with that
message (or any other child-derived message) is created. -/
theorem c2_counterexample :
    commitMessages (runFixesExec (fun _ => true) (fun _ => true) (fun _ => "") [] []
        [c2gha] c2fs 0).1 =
      ["CI: migrate to GitHub actions\n\nPerformed by pcds-migration-tools GitHubActionsMigration"] ∧
    c2deleteTravis.commit_message = "CLN: removing .travis.yml" ∧
    "CLN: removing .travis.yml\n\nPerformed by pcds-migration-tools DeleteFiles" ∉
      commitMessages (runFixesExec (fun _ => true) (fun _ => true) (fun _ => "") [] []
        [c2gha] c2fs 0).1 := by
  refine ⟨by decide, rfl, by decide⟩

/-- Claim C2 (amended): when the runner executes a composite fix whose
children all run cleanly, the children run in order inside the
composite's single `run()` with no per-child commit, and the one commit
that may follow uses the composite's own commit message — created
exactly when that message is non-empty and the status probe reports a
pending change-set. -/
theorem c2_amended (status commitOk : FS → Bool) (ans : Nat → String)
    (name cls msg : String) (children : List RFix) (fs : FS) (k : Nat)
    (h : ∀ c ∈ children, ∀ s, (c.runEff s).2 = false) :
    (runStep status commitOk ans (mkNested name cls msg children) fs k).fs =
      childrenFold children fs ∧
    commitMessages
        (runStep status commitOk ans (mkNested name cls msg children) fs k).events =
      (if msg ≠ "" ∧ status (childrenFold children fs) = true
        then [msg ++ "\n\nPerformed by pcds-migration-tools " ++ cls] else []) := by
  have hrun : (mkNested name cls msg children).runEff fs = (childrenFold children fs, false) :=
    nestedRunEff_no_raise children fs h
  have hnr : ((mkNested name cls msg children).runEff fs).2 = false := by rw [hrun]
  rw [runStep_no_raise _ _ _ _ _ _ hnr]
  constructor
  · rw [commitPhase_fs, hrun]
  · rw [commitMessages_commitPhase, hrun]
    rfl

/-- Witness for C2 (amended) on the concrete CI-migration composite:
its two children rewrite the checkout in order and the single commit
carries the composite's message. -/
theorem c2_amended_witness :
    (runStep (fun _ => true) (fun _ => true) (fun _ => "")
        (mkNested "gha" "GitHubActionsMigration" "CI: migrate to GitHub actions"
          [c2deleteTravis, c2addWorkflow]) c2fs 0).fs =
      childrenFold [c2deleteTravis, c2addWorkflow] c2fs ∧
    commitMessages (runStep (fun _ => true) (fun _ => true) (fun _ => "")
        (mkNested "gha" "GitHubActionsMigration" "CI: migrate to GitHub actions"
          [c2deleteTravis, c2addWorkflow]) c2fs 0).events =
      (if "CI: migrate to GitHub actions" ≠ "" ∧
          (fun (_ : FS) => true) (childrenFold [c2deleteTravis, c2addWorkflow] c2fs) = true
        then ["CI: migrate to GitHub actions\n\nPerformed by pcds-migration-tools GitHubActionsMigration"]
        else []) := by
  exact c2_amended (fun _ => true) (fun _ => true) (fun _ => "") "gha"
    "GitHubActionsMigration" "CI: migrate to GitHub actions"
    [c2deleteTravis, c2addWorkflow] c2fs 0
    (by intro c hc s; fin_cases hc <;> rfl)

theorem UpdateRepo.getFixes_decomp (render : String → String → String)
    (migrate : String → String) (pyprojectToml : FS → String)
    (repoName python_version : String) (fs : FS) (fixes : List FixDesc)
    (h : UpdateRepo.getFixes render migrate pyprojectToml repoName python_version fs =
      some fixes) :
    fixes =
      (if (fs "run_tests.py").isSome then
          [FixDesc.deleteFiles "remove-run_tests.py" ["run_tests.py"] false]
        else []) ++
      UpdateRepo.templateFixes render fs ++
      (match fs ".travis.yml" with
        | some tc => [UpdateRepo.ghaMigration migrate tc]
        | none => []) ++
      (match fs "docs/source/conf.py" with
        | some orig =>
          if orig ≠ UpdateRepo.sphinxNewContents orig then
            [FixDesc.updateSphinxConfig "update_sphinx_config" "docs/source/conf.py"
              orig (UpdateRepo.sphinxNewContents orig)]
          else []
        | none => []) ++
      [FixDesc.runPyupgrade "pyupgrade" python_version pyupgrade_skip_files] ++
      (if (fs "setup.py").isSome then
          [UpdateRepo.pyprojectTomlMigration (pyprojectToml fs)]
        else []) ++
      (if (fs "versioneer.py").isSome || (fs (repoName ++ "/version.py")).isNone then
          [UpdateRepo.setuptoolsScmMigration render repoName fs]
        else []) := by
  unfold UpdateRepo.getFixes at h
  by_cases hgit : (fs ".git").isNone = true
  · rw [if_pos hgit] at h
    cases h
  · rw [if_neg hgit] at h
    exact (Option.some.inj h).symm

/-- Claim C5: catalog priority order — whenever `get_fixes` succeeds,
the emitted list is exactly the concatenation, in this order, of
(1) obsolete-file removal gated on `run_tests.py`, (2) template-file
provisioning, (3) CI migration gated on `.travis.yml`, (4) the Sphinx
touch-up gated on `docs/source/conf.py` existing and the rewrite
changing it, (5) the pyupgrade style pass with its exclusion list,
(6) the pyproject migration gated on `setup.py`, and (7) the
setuptools-scm migration gated on `versioneer.py` existing or the
version module missing. -/
theorem c5_catalog_order (render : String → String → String)
    (migrate : String → String) (pyprojectToml : FS → String)
    (repoName python_version : String) (fs : FS) (fixes : List FixDesc)
    (h : UpdateRepo.getFixes render migrate pyprojectToml repoName python_version fs =
      some fixes) :
    fixes =
      (if (fs "run_tests.py").isSome then
          [FixDesc.deleteFiles "remove-run_tests.py" ["run_tests.py"] false]
        else []) ++
      UpdateRepo.templateFixes render fs ++
      (match fs ".travis.yml" with
        | some tc => [UpdateRepo.ghaMigration migrate tc]
        | none => []) ++
      (match fs "docs/source/conf.py" with
        | some orig =>
          if orig ≠ UpdateRepo.sphinxNewContents orig then
            [FixDesc.updateSphinxConfig "update_sphinx_config" "docs/source/conf.py"
              orig (UpdateRepo.sphinxNewContents orig)]
          else []
        | none => []) ++
      [FixDesc.runPyupgrade "pyupgrade" python_version pyupgrade_skip_files] ++
      (if (fs "setup.py").isSome then
          [UpdateRepo.pyprojectTomlMigration (pyprojectToml fs)]
        else []) ++
      (if (fs "versioneer.py").isSome || (fs (repoName ++ "/version.py")).isNone then
          [UpdateRepo.setuptoolsScmMigration render repoName fs]
        else []) :=
  UpdateRepo.getFixes_decomp render migrate pyprojectToml repoName python_version fs
    fixes h

/-- Witness for C5 at a checkout with every gate enabled. -/
theorem c5_catalog_order_witness :
    (UpdateRepo.getFixes w5render w5migrate w5pyprojectToml "myrepo" "3.9" w5fs).getD [] =
      (if (w5fs "run_tests.py").isSome then
          [FixDesc.deleteFiles "remove-run_tests.py" ["run_tests.py"] false]
        else []) ++
      UpdateRepo.templateFixes w5render w5fs ++
      (match w5fs ".travis.yml" with
        | some tc => [UpdateRepo.ghaMigration w5migrate tc]
        | none => []) ++
      (match w5fs "docs/source/conf.py" with
        | some orig =>
          if orig ≠ UpdateRepo.sphinxNewContents orig then
            [FixDesc.updateSphinxConfig "update_sphinx_config" "docs/source/conf.py"
              orig (UpdateRepo.sphinxNewContents orig)]
          else []
        | none => []) ++
      [FixDesc.runPyupgrade "pyupgrade" "3.9" pyupgrade_skip_files] ++
      (if (w5fs "setup.py").isSome then
          [UpdateRepo.pyprojectTomlMigration (w5pyprojectToml w5fs)]
        else []) ++
      (if (w5fs "versioneer.py").isSome || (w5fs ("myrepo" ++ "/version.py")).isNone then
          [UpdateRepo.setuptoolsScmMigration w5render "myrepo" w5fs]
        else []) := by
  exact c5_catalog_order w5render w5migrate w5pyprojectToml "myrepo" "3.9" w5fs _ rfl

theorem isGha_mkAddFileFromTemplate (render : String → String → String)
    (name base t dest : String) (fs : FS) :
    isGha (mkAddFileFromTemplate render name base t dest fs) = false := by
  unfold mkAddFileFromTemplate
  cases fs dest <;> rfl

theorem isGha_templateFixStep (render : String → String → String) (fs : FS)
    (tf : UpdateRepo.TemplateFile) (d : FixDesc)
    (h : UpdateRepo.templateFixStep render fs tf = some d) : isGha d = false := by
  unfold UpdateRepo.templateFixStep at h
  rcases hfe : firstExisting fs tf.possible_files with _ | dest
  · rw [hfe] at h
    by_cases ha : tf.add_if_missing = true
    · rw [if_pos ha] at h
      cases h
      exact isGha_mkAddFileFromTemplate _ _ _ _ _ _
    · rw [if_neg ha] at h
      cases h
  · rw [hfe] at h
    cases h
    exact isGha_mkAddFileFromTemplate _ _ _ _ _ _

/-- Claim C7: for a checkout containing the legacy CI file and no modern
workflow file, the catalog contains exactly one CI-migration composite
fix, and its sub-fixes are exactly `[delete .travis.yml, add
.github/workflows/standard.yml]` in that order. -/
theorem c7_ci_migration (render : String → String → String)
    (migrate : String → String) (pyprojectToml : FS → String)
    (repoName python_version : String) (fs : FS) (fixes : List FixDesc) (tc : String)
    (htravis : fs ".travis.yml" = some tc)
    (hworkflow : fs ".github/workflows/standard.yml" = none)
    (h : UpdateRepo.getFixes render migrate pyprojectToml repoName python_version fs =
      some fixes) :
    fixes.filter isGha = [UpdateRepo.ghaMigration migrate tc] ∧
    UpdateRepo.ghaMigration migrate tc =
      FixDesc.nested "gha" "CI: migrate to GitHub actions"
        [FixDesc.deleteFiles "delete_travis" [".travis.yml"] false,
         FixDesc.addFile "add_gha_workflow" ".github/workflows/standard.yml"
           (pythonRstrip (migrate tc))] := by
  refine ⟨?_, rfl⟩
  rw [UpdateRepo.getFixes_decomp render migrate pyprojectToml repoName python_version
    fs fixes h]
  rw [htravis]
  have hseg1 : List.filter isGha
      (if (fs "run_tests.py").isSome then
        [FixDesc.deleteFiles "remove-run_tests.py" ["run_tests.py"] false]
      else []) = [] := by
    split_ifs <;> rfl
  have hseg2 : List.filter isGha (UpdateRepo.templateFixes render fs) = [] := by
    rw [List.filter_eq_nil_iff]
    intro a ha
    obtain ⟨tf, _, hstep⟩ := List.mem_filterMap.mp ha
    simp [isGha_templateFixStep render fs tf a hstep]
  have hseg4 : List.filter isGha
      (match fs "docs/source/conf.py" with
        | some orig =>
          if orig ≠ UpdateRepo.sphinxNewContents orig then
            [FixDesc.updateSphinxConfig "update_sphinx_config" "docs/source/conf.py"
              orig (UpdateRepo.sphinxNewContents orig)]
          else []
        | none => []) = [] := by
    rcases hconf : fs "docs/source/conf.py" with _ | orig
    · rfl
    · show List.filter isGha
        (if orig ≠ UpdateRepo.sphinxNewContents orig then
          [FixDesc.updateSphinxConfig "update_sphinx_config" "docs/source/conf.py"
            orig (UpdateRepo.sphinxNewContents orig)]
        else []) = []
      split_ifs <;> rfl
  have hseg6 : List.filter isGha
      (if (fs "setup.py").isSome then
        [UpdateRepo.pyprojectTomlMigration (pyprojectToml fs)]
      else []) = [] := by
    split_ifs <;> rfl
  have hseg7 : List.filter isGha
      (if (fs "versioneer.py").isSome || (fs (repoName ++ "/version.py")).isNone then
        [UpdateRepo.setuptoolsScmMigration render repoName fs]
      else []) = [] := by
    split_ifs <;> rfl
  simp only [List.filter_append, hseg1, hseg2, hseg4, hseg6, hseg7]
  simp [UpdateRepo.ghaMigration, isGha]

/-- Witness for C7: the all-gates-on checkout has the legacy CI file and
no workflow file; its catalog's only CI-migration fix is the expected
composite. -/
theorem c7_ci_migration_witness :
    ((UpdateRepo.getFixes w5render w5migrate w5pyprojectToml "myrepo" "3.9" w5fs).getD []).filter
        isGha = [UpdateRepo.ghaMigration w5migrate "language: python"] ∧
    UpdateRepo.ghaMigration w5migrate "language: python" =
      FixDesc.nested "gha" "CI: migrate to GitHub actions"
        [FixDesc.deleteFiles "delete_travis" [".travis.yml"] false,
         FixDesc.addFile "add_gha_workflow" ".github/workflows/standard.yml"
           (pythonRstrip (w5migrate "language: python"))] := by
  exact c7_ci_migration w5render w5migrate w5pyprojectToml "myrepo" "3.9" w5fs _
    "language: python" rfl rfl rfl

theorem firstExisting_isSome (fs : FS) (l : List String) (d : String)
    (h : firstExisting fs l = some d) : (fs d).isSome = true := by
  induction l with
  | nil => cases h
  | cons p ps ih =>
    rw [firstExisting] at h
    by_cases hp : (fs p).isSome = true
    · rw [if_pos hp] at h
      cases h
      exact hp
    · rw [if_neg hp] at h
      exact ih h

/-- Claim C6: TemplateFile conflict policy (the twincat catalog's
template loop, whose `TemplateFile` carries the two independent policy
booleans) — the first existing candidate destination is authoritative;
with no existing candidate and `add_if_missing` false nothing is
emitted; when a file exists under a candidate name the emitted fix (if
any) targets the discovered path, records the existing contents (an
update, never an "add"), and is emitted exactly when
`update_if_existing` is true. -/
theorem c6_template_policy (render : String → String → String) (fs : FS)
    (tf : Twincat.TemplateFile) :
    (∀ d, firstExisting fs tf.possible_files = some d →
      Twincat.templateFixStep render fs tf =
        (if tf.update_if_existing then
          some (mkAddFileFromTemplate render ("add_" ++ tf.template_file)
            tf.template_root tf.template_file d fs)
        else none)) ∧
    (firstExisting fs tf.possible_files = none → tf.add_if_missing = false →
      Twincat.templateFixStep render fs tf = none) ∧
    (∀ d c, firstExisting fs tf.possible_files = some d → fs d = some c →
      (tf.update_if_existing = false → Twincat.templateFixStep render fs tf = none) ∧
      (tf.update_if_existing = true →
        Twincat.templateFixStep render fs tf =
          some (FixDesc.addFileFromTemplate ("add_" ++ tf.template_file)
            tf.template_file d (render tf.template_root tf.template_file) (some c)
            (decide (c ≠ render tf.template_root tf.template_file))))) := by
  refine ⟨?_, ?_, ?_⟩
  · intro d hd
    have hex := firstExisting_isSome fs tf.possible_files d hd
    unfold Twincat.templateFixStep
    rw [hd]
    cases hupd : tf.update_if_existing with
    | false => simp [hex, hupd]
    | true => simp [hex, hupd]
  · intro hnone hadd
    unfold Twincat.templateFixStep
    rw [hnone, hadd]
    rfl
  · intro d c hd hc
    have hex := firstExisting_isSome fs tf.possible_files d hd
    constructor
    · intro hupd
      unfold Twincat.templateFixStep
      rw [hd]
      simp [hex, hupd]
    · intro hupd
      unfold Twincat.templateFixStep
      rw [hd]
      simp only [hex, hupd, Bool.not_true, Bool.and_false, Bool.false_eq_true,
        if_false]
      unfold mkAddFileFromTemplate
      rw [hc]

/-- Witness for C6: with `.pre-commit-config.yaml` already present, the
`update_if_existing = False` descriptor emits nothing while the
`update_if_existing = True` variant emits an update fix carrying the
discovered file's contents. -/
theorem c6_template_policy_witness :
    Twincat.templateFixStep w6render w6fs w6tfLocked = none ∧
    Twincat.templateFixStep w6render w6fs w6tfOpen =
      some (FixDesc.addFileFromTemplate "add_.pre-commit-config.yaml"
        ".pre-commit-config.yaml" ".pre-commit-config.yaml"
        (w6render "lcls-twincat-template-project" ".pre-commit-config.yaml")
        (some "old")
        (decide ("old" ≠ w6render "lcls-twincat-template-project" ".pre-commit-config.yaml"))) := by
  constructor
  · exact ((c6_template_policy w6render w6fs w6tfLocked).2.2
      ".pre-commit-config.yaml" "old" rfl rfl).1 rfl
  · have := ((c6_template_policy w6render w6fs w6tfOpen).2.2
      ".pre-commit-config.yaml" "old" rfl rfl).2 rfl
    simpa using this

theorem string_data_append (a b : String) : (a ++ b).data = a.data ++ b.data := rfl

theorem string_mk_data (s : String) : String.mk s.data = s := rfl

theorem pySplitlinesAux_append_newline (cs : List Char)
    (h : ∀ c ∈ cs, c ≠ '\n' ∧ c ≠ '\r') (rest acc : List Char) :
    pySplitlinesAux (cs ++ '\n' :: rest) acc =
      (acc.reverse ++ cs) :: pySplitlinesAux rest [] := by
  induction cs generalizing acc with
  | nil => simp [pySplitlinesAux]
  | cons c cs' ih =>
    have hc := h c (by simp)
    have h' : ∀ x ∈ cs', x ≠ '\n' ∧ x ≠ '\r' := fun x hx => h x (by simp [hx])
    have step : pySplitlinesAux (c :: (cs' ++ '\n' :: rest)) acc =
        pySplitlinesAux (cs' ++ '\n' :: rest) (c :: acc) := by
      simp [pySplitlinesAux, hc.2, hc.1]
    rw [List.cons_append, step, ih h']
    simp

theorem pySplitlines_joinLines (L : List String) (hne : L ≠ [])
    (h : ∀ s ∈ L, cleanLine s = true) :
    pySplitlines (joinLines L ++ "\n") = L := by
  induction L with
  | nil => exact absurd rfl hne
  | cons a t ih =>
    have hclean : ∀ c ∈ a.data, c ≠ '\n' ∧ c ≠ '\r' := by
      have := h a (by simp)
      simp only [cleanLine, List.all_eq_true] at this
      intro c hc
      have hb := this c hc
      constructor
      · intro he; rw [he] at hb; simp at hb
      · intro he; rw [he] at hb; simp at hb
    cases t with
    | nil =>
      show pySplitlines (a ++ "\n") = [a]
      unfold pySplitlines
      have hdata : (a ++ "\n").data = a.data ++ '\n' :: [] := rfl
      rw [hdata, pySplitlinesAux_append_newline a.data hclean [] []]
      simp [pySplitlinesAux, string_mk_data]
    | cons b t' =>
      have ht : pySplitlines (joinLines (b :: t') ++ "\n") = b :: t' :=
        ih (by simp) (fun s hs => h s (by simp [hs]))
      show pySplitlines ((a ++ "\n" ++ joinLines (b :: t')) ++ "\n") = a :: b :: t'
      unfold pySplitlines
      have hnl : ("\n" : String).data = ['\n'] := rfl
      have hdata : ((a ++ "\n" ++ joinLines (b :: t')) ++ "\n").data =
          a.data ++ '\n' :: ((joinLines (b :: t')).data ++ '\n' :: []) := by
        simp [string_data_append, hnl]
      rw [hdata, pySplitlinesAux_append_newline a.data hclean _ []]
      unfold pySplitlines at ht
      have hdata2 : (joinLines (b :: t') ++ "\n").data =
          (joinLines (b :: t')).data ++ '\n' :: [] := rfl
      rw [hdata2] at ht
      rw [List.map_cons, ht]
      simp [string_mk_data]

theorem prependFold_all_absent (cfg : List String) (acc : List String)
    (hnodup : cfg.Nodup) (habsent : ∀ l ∈ cfg, l ∉ acc) :
    prependFold true cfg acc = cfg.reverse ++ acc := by
  induction cfg generalizing acc with
  | nil => rfl
  | cons l ls ih =>
    have hmem : l ∉ acc := habsent l (by simp)
    have step : prependFold true (l :: ls) acc = prependFold true ls (l :: acc) := by
      simp [prependFold, hmem]
    rw [step, ih (l :: acc) (List.Nodup.of_cons hnodup) (by
      intro x hx
      simp only [List.mem_cons]
      rintro (rfl | hmemx)
      · exact (List.nodup_cons.mp hnodup).1 hx
      · exact habsent x (by simp [hx]) hmemx)]
    simp

/-- Counterexample to claim C9: a `PrependLines` fix with
`skip_if_present = True` and the duplicated configured list
`["a", "a"]`, all of whose entries are absent from the target file
`"b"`, does not insert each configured line — the second `"a"` is
skipped because the first insertion made it present — so the resulting
file does not begin with the configured lines in reverse order. -/
theorem c9_counterexample :
    (∀ l ∈ c9cfg, l ∉ pySplitlines "b") ∧
    (applyFix id (FixDesc.prependLines "setuptools_scm_version" "f" c9cfg true)
        c9fs).map (fun g => g "f") = some (some "a\nb\n") ∧
    List.take 2 (pySplitlines "a\nb\n") ≠ c9cfg.reverse := by
  refine ⟨by decide, by decide, by decide⟩

/-- Claim C9 (amended): for a `PrependLines` fix with
`skip_if_present = True` whose configured lines are distinct and all
absent from the target file, `run()` inserts each configured line at
position zero in sequence, so the rewritten file's line list is the
configured lines in reverse order followed by the original lines (in
particular the last configured line is the file's first line); the
re-split of the written text equals that list whenever the lines are
newline-free and the joined text carries no trailing whitespace. -/
theorem c9_amended (pyup : FS → FS) (fs : FS) (name file content : String)
    (cfg : List String)
    (hfile : fs file = some content)
    (hnodup : cfg.Nodup)
    (habsent : ∀ l ∈ cfg, l ∉ pySplitlines content) :
    applyFix pyup (FixDesc.prependLines name file cfg true) fs =
      some (fs.write file (writeLines (cfg.reverse ++ pySplitlines content))) ∧
    ((∀ s ∈ cfg.reverse ++ pySplitlines content, cleanLine s = true) →
      pythonRstrip (joinLines (cfg.reverse ++ pySplitlines content)) =
        joinLines (cfg.reverse ++ pySplitlines content) →
      cfg.reverse ++ pySplitlines content ≠ [] →
      pySplitlines (writeLines (cfg.reverse ++ pySplitlines content)) =
        cfg.reverse ++ pySplitlines content) := by
  constructor
  · show (match fs file with
      | none => none
      | some c =>
        some (fs.write file (writeLines (prependFold true cfg (pySplitlines c))))) =
      some (fs.write file (writeLines (cfg.reverse ++ pySplitlines content)))
    rw [hfile]
    show some (fs.write file (writeLines (prependFold true cfg (pySplitlines content)))) =
      some (fs.write file (writeLines (cfg.reverse ++ pySplitlines content)))
    rw [prependFold_all_absent cfg (pySplitlines content) hnodup habsent]
  · intro hcleanAll hrstrip hnonempty
    show pySplitlines
        (pythonRstrip (joinLines (cfg.reverse ++ pySplitlines content)) ++ "\n") =
      cfg.reverse ++ pySplitlines content
    rw [hrstrip]
    exact pySplitlines_joinLines _ hnonempty hcleanAll

/-- Witness for C9 (amended): prepending distinct absent lines
`["x", "y"]` to the one-line file `"b"` yields the line list
`["y", "x", "b"]`. -/
theorem c9_amended_witness :
    applyFix id (FixDesc.prependLines "setuptools_scm_version" "f" ["x", "y"] true)
        c9fs =
      some (c9fs.write "f" (writeLines (["x", "y"].reverse ++ pySplitlines "b"))) ∧
    pySplitlines (writeLines (["x", "y"].reverse ++ pySplitlines "b")) =
      ["x", "y"].reverse ++ pySplitlines "b" := by
  have h := c9_amended id c9fs "setuptools_scm_version" "f" "b" ["x", "y"] rfl
    (by decide) (by decide)
  exact ⟨h.1, h.2 (by decide) (by decide) (by decide)⟩

/-- Claim C1 (code bug, evaluated at the failing input): catalog,
apply-all, catalog again on a repository holding only `.git` and
`myrepo/version.py`, with every template rendering to `"x"` (no trailing
newline, as jinja2's default `keep_trailing_newline=False` produces).
The second catalog re-emits all eight template fixes with
`changed = True` — none describes itself as unchanged; the `add_LICENSE`
fix describes a "Modify" although its unified diff is empty, because the
write path stored `"x\n"` (`print(contents.rstrip(), file=fp)`) while
`__post_init__` compares the raw file text against the raw render
`"x"`. -/
theorem c1_idempotence_code_bug :
    c1catalog2.map (fun l => l.countP (fun f => isAft f)) = some 8 ∧
    c1catalog2.map (fun l => l.all (fun f => !isAft f || aftChanged f)) = some true ∧
    c1catalog2.map (fun l => l.all aftLinesEq) = some true ∧
    (c1catalog2.bind (fun l => l.find? (fun f => FixDesc.name f == "add_LICENSE"))).map
        (FixDesc.aftDesc (fun _ _ _ _ => "")) =
      some "Modify LICENSE from template with args \x7b\x7d:\n" ∧
    c1fsAfter.map (fun g => g "LICENSE") = some (some "x\n") := by
  exact ⟨by decide, by decide, by decide, by decide, by decide⟩

end PcdsMigration
